import Mathlib

/-
Verification of the bananascript front end and execution core:
  * src/evaluator/evaluator.go  (tree-walking evaluator, function Eval and helpers)
  * src/parser/statement_parser.go  (statement parser with scope checking)

Modelling conventions (shallow embedding):
  * Go runtime objects (evaluator Object interface) are modelled as values of the
    inductive type `Object`.  A Go `Object` variable can also hold nil, so every
    evaluation result is an `Option Object` (`none` = Go nil = "no value").
  * Go int64 arithmetic wraps on overflow; we model int64 values as `Int` and wrap
    every arithmetic result with `wrap64`.  Go float64 is idealised as `Rat`
    (exact rational arithmetic; IEEE rounding, infinities and NaN are out of scope,
    in particular `Rat` division by zero yields 0 rather than an IEEE infinity).
  * A Go panic (an uncontrolled host-level failure, e.g. integer division by zero)
    is the `EvalResult.hostPanic` outcome; it is distinct from every language-level
    Object, including the ErrorObject sentinel.
  * Environments (environment.go is not under src/) are modelled from the spec:
    a store of scopes addressed by index, each scope holding an association list of
    bindings and an optional parent index.  The Go code mutates heap-allocated
    objects through pointers; we model the observable effect by functional update
    of the binding in the scope where the name lookup finds it.  The per-type
    member table and member access are not needed by any claim and are omitted.
  * The evaluator recursion is made total with a fuel parameter; fuel exhaustion
    is the artificial outcome `EvalResult.timeout` (a non-terminating while loop
    in Go simply never returns).  Fuel decreases at every recursive step, so all
    definitions are structurally recursive and reduce inside the kernel.
-/

/-- Infix operator tokens handled by evalInfixExpression
(token.EQ, NEQ, LT, GT, LTE, GTE, Plus, Minus, Slash, Star, LogicalAnd, LogicalOr). -/
inductive BinOp where
  | eq | neq | lt | gt | lte | gte | plus | minus | slash | star | land | lor
deriving Repr, DecidableEq

/-- Prefix operator tokens handled by evalPrefixExpression (token.Bang, token.Minus). -/
inductive UnOp where
  | bang | neg
deriving Repr, DecidableEq

mutual
/-- Expression AST nodes of parser that the evaluator dispatches on
(StringLiteral, IntegerLiteral, FloatLiteral, BooleanLiteral, NullLiteral,
VoidLiteral, Identifier, InfixExpression, PrefixExpression, CallExpression,
AssignmentExpression, IncrementExpression).  MemberAccessExpression is not
needed by any claim and is omitted. -/
inductive Expr where
  | strLit (s : String)
  | intLit (n : Int)
  | floatLit (q : Rat)
  | boolLit (b : Bool)
  | nullLit
  | voidLit
  | ident (name : String)
  | bin (op : BinOp) (l r : Expr)
  | unary (op : UnOp) (e : Expr)
  | call (fn : Expr) (args : List Expr)
  | assign (name : String) (e : Expr)
  | increment (name : String) (isInc : Bool) (isPre : Bool)
deriving Repr

/-- Statement AST nodes (ExpressionStatement, LetStatement,
FunctionDefinitionStatement without a ThisType receiver, ReturnStatement,
BlockStatement, IfStatement, WhileStatement).  TypeDefinitionStatement
evaluates to nothing and is omitted. -/
inductive Stmt where
  | exprStmt (e : Expr)
  | letStmt (name : String) (value : Expr)
  | funcDef (name : String) (params : List String) (body : List Stmt)
  | returnStmt (e : Expr)
  | block (stmts : List Stmt)
  | ifStmt (cond : Expr) (thens : Stmt) (alt : Option Stmt)
  | whileStmt (cond : Expr) (body : Stmt)
deriving Repr
end

/-- Runtime objects (IntegerObject, FloatObject, StringObject, BooleanObject,
NullObject, FunctionObject, ReturnObject, ErrorObject).  A FunctionObject keeps
its parameter names, body block and a reference (store index) to the captured
environment; a ReturnObject wraps the possibly-nil Object produced by the
return statement expression. -/
inductive Object where
  | integer (v : Int)
  | float (v : Rat)
  | str (v : String)
  | boolean (v : Bool)
  | null
  | function (params : List String) (body : List Stmt) (envRef : Nat)
  | ret (inner : Option Object)
  | error (msg : String)
deriving Repr

/-- Outcome of one evaluation step: a (possibly nil) Object, an uncontrolled Go
runtime panic, or fuel exhaustion (modelling non-termination). -/
inductive EvalResult where
  | ok (o : Option Object)
  | hostPanic (msg : String)
  | timeout
deriving Repr

/-- Go two's-complement int64 wrap-around, on unbounded `Int`. -/
def wrap64 (n : Int) : Int := (n + 2 ^ 63) % 2 ^ 64 - 2 ^ 63

/-- isError from evaluator.go: true iff the object is the ErrorObject sentinel. -/
def isError : Option Object → Bool
  | some (.error _) => true
  | _ => false

/-- implicitBoolConversion from evaluator.go: Boolean to its value, Integer and
Float to nonzero, String to nonempty, every other case (including a nil Object)
to true. -/
def implicitBoolConversion : Option Object → Bool
  | some (.boolean b) => b
  | some (.integer v) => v != 0
  | some (.float v) => v != 0
  | some (.str v) => v.length != 0
  | _ => true

mutual
/-- Structural equality on objects, modelling reflect.DeepEqual in evalEquals.
Deviation: DeepEqual on two FunctionObjects compares the captured environments
deeply through the pointers, while here two function values are equal iff they
capture the same store reference; no claim depends on function equality. -/
def objBeq : Object → Object → Bool
  | .integer a, .integer b => a == b
  | .float a, .float b => a == b
  | .str a, .str b => a == b
  | .boolean a, .boolean b => a == b
  | .null, .null => true
  | .function p₁ b₁ e₁, .function p₂ b₂ e₂ => p₁ == p₂ && stmtListBeq b₁ b₂ && e₁ == e₂
  | .ret a, .ret b => optObjBeq a b
  | .error a, .error b => a == b
  | _, _ => false

def optObjBeq : Option Object → Option Object → Bool
  | none, none => true
  | some a, some b => objBeq a b
  | _, _ => false

def stmtBeq : Stmt → Stmt → Bool
  | .exprStmt a, .exprStmt b => exprBeq a b
  | .letStmt n₁ v₁, .letStmt n₂ v₂ => n₁ == n₂ && exprBeq v₁ v₂
  | .funcDef n₁ p₁ b₁, .funcDef n₂ p₂ b₂ => n₁ == n₂ && p₁ == p₂ && stmtListBeq b₁ b₂
  | .returnStmt a, .returnStmt b => exprBeq a b
  | .block a, .block b => stmtListBeq a b
  | .ifStmt c₁ t₁ none, .ifStmt c₂ t₂ none => exprBeq c₁ c₂ && stmtBeq t₁ t₂
  | .ifStmt c₁ t₁ (some a₁), .ifStmt c₂ t₂ (some a₂) =>
      exprBeq c₁ c₂ && stmtBeq t₁ t₂ && stmtBeq a₁ a₂
  | .whileStmt c₁ b₁, .whileStmt c₂ b₂ => exprBeq c₁ c₂ && stmtBeq b₁ b₂
  | _, _ => false

def stmtListBeq : List Stmt → List Stmt → Bool
  | [], [] => true
  | x :: xs, y :: ys => stmtBeq x y && stmtListBeq xs ys
  | _, _ => false

def exprBeq : Expr → Expr → Bool
  | .strLit a, .strLit b => a == b
  | .intLit a, .intLit b => a == b
  | .floatLit a, .floatLit b => a == b
  | .boolLit a, .boolLit b => a == b
  | .nullLit, .nullLit => true
  | .voidLit, .voidLit => true
  | .ident a, .ident b => a == b
  | .bin o₁ l₁ r₁, .bin o₂ l₂ r₂ => o₁ == o₂ && exprBeq l₁ l₂ && exprBeq r₁ r₂
  | .unary o₁ e₁, .unary o₂ e₂ => o₁ == o₂ && exprBeq e₁ e₂
  | .call f₁ a₁, .call f₂ a₂ => exprBeq f₁ f₂ && exprListBeq a₁ a₂
  | .assign n₁ e₁, .assign n₂ e₂ => n₁ == n₂ && exprBeq e₁ e₂
  | .increment n₁ i₁ p₁, .increment n₂ i₂ p₂ => n₁ == n₂ && i₁ == i₂ && p₁ == p₂
  | _, _ => false

def exprListBeq : List Expr → List Expr → Bool
  | [], [] => true
  | x :: xs, y :: ys => exprBeq x y && exprListBeq xs ys
  | _, _ => false
end

/-- evalEquals from evaluator.go: reflect.DeepEqual over the two operand objects
(either of which may be nil). -/
def evalEquals (left right : Option Object) : Bool := optObjBeq left right

/-- Modelled from the spec: Object.ToString textual rendering (objects.go is not
under src/); used only by the string-concatenation branch of `+`, which no claim
exercises on non-string operands. -/
def objToString : Option Object → String
  | some (.str s) => s
  | some (.integer n) => toString n
  | some (.float q) => toString q
  | some (.boolean b) => toString b
  | some .null => "null"
  | some (.function _ _ _) => "function"
  | some (.ret _) => "return"
  | some (.error m) => m
  | none => "void"

/-- One runtime scope: bindings of this scope (most recent first, so that
redefinition shadows like a Go map overwrite) and the parent scope index. -/
structure Scope where
  vars : List (String × Option Object)
  parent : Option Nat
deriving Repr

/-- Modelled from the spec: the runtime Environment chain (environment.go is not
under src/), as a store of scopes addressed by index. -/
abbrev EnvStore := List Scope

/-- The lookup half of a Go map read on one scope. -/
def lookupVars : List (String × Option Object) → String → Option (Option Object)
  | [], _ => none
  | (k, v) :: rest, name => if k == name then some v else lookupVars rest name

/-- Replace the binding of `name` in one scope (the scope holds it), or `none`
if the scope does not bind `name`. -/
def assignVars : List (String × Option Object) → String → Option Object →
    Option (List (String × Option Object))
  | [], _, _ => none
  | (k, v) :: rest, name, w =>
    if k == name then some ((k, w) :: rest)
    else match assignVars rest name w with
      | some rest₂ => some ((k, v) :: rest₂)
      | none => none

/-- Modelled from the spec: ExtendEnvironment allocates a fresh child scope of
the given environment and returns its reference. -/
def extendEnv (parent : Nat) (st : EnvStore) : Nat × EnvStore :=
  (st.length, st ++ [{ vars := [], parent := some parent }])

/-- Modelled from the spec: Environment.DefineObject inserts into the current
scope only (no redefinition check at runtime). -/
def defineObject (st : EnvStore) (ref : Nat) (name : String) (v : Option Object) : EnvStore :=
  match st.get? ref with
  | some sc => st.set ref { sc with vars := (name, v) :: sc.vars }
  | none => st

/-- Walk from scope `ref` outward through parents looking for `name`
(Environment.GetObject); `gas` bounds the walk. -/
def getObjectAux : Nat → EnvStore → Nat → String → Option (Option Object)
  | 0, _, _, _ => none
  | gas + 1, st, ref, name =>
    match st.get? ref with
    | none => none
    | some sc =>
      match lookupVars sc.vars name with
      | some v => some v
      | none =>
        match sc.parent with
        | some p => getObjectAux gas st p name
        | none => none

/-- Modelled from the spec: Environment.GetObject walks from the current scope
outward through the parents and returns the first binding of `name`. -/
def getObject (st : EnvStore) (ref : Nat) (name : String) : Option (Option Object) :=
  getObjectAux st.length st ref name

/-- Walk from scope `ref` outward and overwrite the first existing binding of
`name` (Environment.AssignObject); `none` when no scope in the chain binds it. -/
def assignObjectAux : Nat → EnvStore → Nat → String → Option Object → Option EnvStore
  | 0, _, _, _, _ => none
  | gas + 1, st, ref, name, w =>
    match st.get? ref with
    | none => none
    | some sc =>
      match assignVars sc.vars name w with
      | some vars₂ => some (st.set ref { sc with vars := vars₂ })
      | none =>
        match sc.parent with
        | some p => assignObjectAux gas st p name w
        | none => none

/-- Modelled from the spec: Environment.AssignObject mutates the nearest
existing binding in place and reports failure when none exists; assignment
never creates a new binding. -/
def assignObject (st : EnvStore) (ref : Nat) (name : String) (w : Option Object) :
    Option EnvStore :=
  assignObjectAux st.length st ref name w

/-- Bind the parameter names of a called function to the evaluated argument
objects in the fresh call scope (excess of either list is dropped, as the
parser guarantees matching arity). -/
def defineParams (st : EnvStore) (ref : Nat) :
    List String → List (Option Object) → EnvStore
  | [], _ => st
  | _, [] => st
  | p :: ps, a :: as₂ => defineParams (defineObject st ref p a) ref ps as₂

/-- The part of evalInfixExpression after both operands are evaluated and the
logical operators are dispatched (evaluator.go lines 114-174), together with
evalNumericInfix inlined through the two constructor callbacks it receives. -/
def evalNumericBin (left right : Option Object)
    (intCons : Int → Int → EvalResult) (floatCons : Rat → Rat → EvalResult) : EvalResult :=
  match left with
  | some (.integer l) =>
    match right with
    | some (.integer r) => intCons l r
    | some (.float r) => floatCons (l : Rat) r
    | _ => .ok (some (.error "Invalid infix operator"))
  | some (.float l) =>
    match right with
    | some (.integer r) => floatCons l (r : Rat)
    | some (.float r) => floatCons l r
    | _ => .ok (some (.error "Invalid infix operator"))
  | _ => .ok (some (.error "Invalid infix operator"))

/-- Is the object a StringObject (the `+` concatenation test). -/
def isStr : Option Object → Bool
  | some (.str _) => true
  | _ => false

/-- The operator dispatch switch of evalInfixExpression for the non-logical
operators, applied to the two already-evaluated operand objects.  Go executes
`left / right` natively inside the integer callback of the Slash case, which
panics when `right` is zero: that is the hostPanic outcome. -/
def applyBinOp (op : BinOp) (lv rv : Option Object) : EvalResult :=
  match op with
  | .eq => .ok (some (.boolean (evalEquals lv rv)))
  | .neq => .ok (some (.boolean (!evalEquals lv rv)))
  | .lt => evalNumericBin lv rv
      (fun a b => .ok (some (.boolean (decide (a < b)))))
      (fun a b => .ok (some (.boolean (decide (a < b)))))
  | .gt => evalNumericBin lv rv
      (fun a b => .ok (some (.boolean (decide (a > b)))))
      (fun a b => .ok (some (.boolean (decide (a > b)))))
  | .lte => evalNumericBin lv rv
      (fun a b => .ok (some (.boolean (decide (a ≤ b)))))
      (fun a b => .ok (some (.boolean (decide (a ≤ b)))))
  | .gte => evalNumericBin lv rv
      (fun a b => .ok (some (.boolean (decide (a ≥ b)))))
      (fun a b => .ok (some (.boolean (decide (a ≥ b)))))
  | .plus =>
    if isStr lv || isStr rv then .ok (some (.str (objToString lv ++ objToString rv)))
    else evalNumericBin lv rv
      (fun a b => .ok (some (.integer (wrap64 (a + b)))))
      (fun a b => .ok (some (.float (a + b))))
  | .minus => evalNumericBin lv rv
      (fun a b => .ok (some (.integer (wrap64 (a - b)))))
      (fun a b => .ok (some (.float (a - b))))
  | .slash => evalNumericBin lv rv
      (fun a b =>
        if b = 0 then .hostPanic "runtime error: integer divide by zero"
        else .ok (some (.integer (wrap64 (Int.tdiv a b)))))
      (fun a b => .ok (some (.float (a / b))))
  | .star => evalNumericBin lv rv
      (fun a b => .ok (some (.integer (wrap64 (a * b)))))
      (fun a b => .ok (some (.float (a * b))))
  | .land | .lor => .ok (some (.error "Unknown infix operator"))

/-- The task of one evaluator step: an expression, a statement, the remaining
statements of a block (evalBlockStatement loop), or a function call in progress
(the argument loop and FunctionObject.Execute of evalCallExpression). -/
inductive EvalTask where
  | expr (e : Expr)
  | stmt (s : Stmt)
  | blockList (ss : List Stmt)
  | callRun (params : List String) (body : List Stmt) (cEnv : Nat)
      (pending : List Expr) (collected : List (Option Object))
deriving Repr

/-- The evaluator: a faithful translation of Eval and its helper functions from
evaluator.go, with fuel making the recursion structural.  `env` is the current
environment reference into the store. -/
def evalGo : Nat → EvalTask → Nat → EnvStore → EvalResult × EnvStore
  | 0, _, _, st => (.timeout, st)
  | fuel + 1, task, env, st =>
    match task with
    | .expr e =>
      match e with
      | .strLit s => (.ok (some (.str s)), st)
      | .intLit n => (.ok (some (.integer n)), st)
      | .floatLit q => (.ok (some (.float q)), st)
      | .boolLit b => (.ok (some (.boolean b)), st)
      | .nullLit => (.ok (some .null), st)
      | .voidLit => (.ok none, st)
      | .ident name =>
        match getObject st env name with
        | some v => (.ok v, st)
        | none => (.ok (some (.error "Cannot resolve identifier")), st)
      | .bin op l r =>
        match evalGo fuel (.expr l) env st with
        | (.ok lv, st₁) =>
          if isError lv then (.ok lv, st₁)
          else if op == .land && !implicitBoolConversion lv then
            (.ok (some (.boolean false)), st₁)
          else if op == .lor && implicitBoolConversion lv then
            (.ok (some (.boolean true)), st₁)
          else
            match evalGo fuel (.expr r) env st₁ with
            | (.ok rv, st₂) =>
              if isError rv then (.ok rv, st₂)
              else if op == .land || op == .lor then
                (.ok (some (.boolean (implicitBoolConversion rv))), st₂)
              else (applyBinOp op lv rv, st₂)
            | other => other
        | other => other
      | .unary op inner =>
        match evalGo fuel (.expr inner) env st with
        | (.ok v, st₁) =>
          if isError v then (.ok v, st₁)
          else
            match op with
            | .bang => (.ok (some (.boolean (!implicitBoolConversion v))), st₁)
            | .neg =>
              match v with
              | some (.integer n) => (.ok (some (.integer (wrap64 (-n)))), st₁)
              | some (.float q) => (.ok (some (.float (-q))), st₁)
              | _ => (.ok (some (.error "Unknown prefix operator")), st₁)
        | other => other
      | .call fn args =>
        match evalGo fuel (.expr fn) env st with
        | (.ok fv, st₁) =>
          match fv with
          | some (.error m) => (.ok (some (.error m)), st₁)
          | some (.function params body cEnv) =>
            match evalGo fuel (.callRun params body cEnv args []) env st₁ with
            | (.ok (some (.ret inner)), st₂) => (.ok inner, st₂)
            | other => other
          | _ => (.ok (some (.error "Cannot call non-function")), st₁)
        | other => other
      | .assign name rhs =>
        match evalGo fuel (.expr rhs) env st with
        | (.ok v, st₁) =>
          if isError v then (.ok v, st₁)
          else
            match assignObject st₁ env name v with
            | some st₂ => (.ok v, st₂)
            | none => (.ok (some (.error "Cannot resolve variable")), st₁)
        | other => other
      | .increment name isInc isPre =>
        match getObject st env name with
        | none => (.ok (some (.error "Cannot resolve identifier")), st)
        | some v =>
          match v with
          | some (.integer n) =>
            let newVal := wrap64 (if isInc then n + 1 else n - 1)
            let st₁ := (assignObject st env name (some (.integer newVal))).getD st
            if isPre then (.ok (some (.integer newVal)), st₁)
            else (.ok (some (.integer n)), st₁)
          | some (.float q) =>
            let newVal := if isInc then q + 1 else q - 1
            let st₁ := (assignObject st env name (some (.float newVal))).getD st
            if isPre then (.ok (some (.float newVal)), st₁)
            else (.ok (some (.float q)), st₁)
          | _ => (.ok (some (.error "Cannot increment non-int")), st)
    | .stmt s =>
      match s with
      | .exprStmt e => evalGo fuel (.expr e) env st
      | .letStmt name value =>
        match evalGo fuel (.expr value) env st with
        | (.ok v, st₁) =>
          if isError v then (.ok v, st₁)
          else (.ok none, defineObject st₁ env name v)
        | other => other
      | .funcDef name params body =>
        (.ok none, defineObject st env name (some (.function params body env)))
      | .returnStmt e =>
        match evalGo fuel (.expr e) env st with
        | (.ok v, st₁) =>
          if isError v then (.ok v, st₁)
          else (.ok (some (.ret v)), st₁)
        | other => other
      | .block ss =>
        let pr := extendEnv env st
        evalGo fuel (.blockList ss) pr.1 pr.2
      | .ifStmt cond thens alt =>
        match evalGo fuel (.expr cond) env st with
        | (.ok cv, st₁) =>
          if isError cv then (.ok cv, st₁)
          else
            let branch :=
              if implicitBoolConversion cv then
                let pr := extendEnv env st₁
                evalGo fuel (.stmt thens) pr.1 pr.2
              else
                match alt with
                | some alternative =>
                  let pr := extendEnv env st₁
                  evalGo fuel (.stmt alternative) pr.1 pr.2
                | none => (.ok none, st₁)
            match branch with
            | (.ok (some (.error m)), st₂) => (.ok (some (.error m)), st₂)
            | (.ok (some (.ret v)), st₂) => (.ok (some (.ret v)), st₂)
            | (.ok _, st₂) => (.ok none, st₂)
            | other => other
        | other => other
      | .whileStmt cond body =>
        match evalGo fuel (.expr cond) env st with
        | (.ok cv, st₁) =>
          if isError cv then (.ok cv, st₁)
          else if !implicitBoolConversion cv then (.ok none, st₁)
          else
            let pr := extendEnv env st₁
            match evalGo fuel (.stmt body) pr.1 pr.2 with
            | (.ok (some (.error m)), st₂) => (.ok (some (.error m)), st₂)
            | (.ok (some (.ret v)), st₂) => (.ok (some (.ret v)), st₂)
            | (.ok _, st₂) => evalGo fuel (.stmt (.whileStmt cond body)) env st₂
            | other => other
        | other => other
    | .blockList ss =>
      match ss with
      | [] => (.ok none, st)
      | s :: rest =>
        match evalGo fuel (.stmt s) env st with
        | (.ok (some (.error m)), st₁) => (.ok (some (.error m)), st₁)
        | (.ok (some (.ret v)), st₁) => (.ok (some (.ret v)), st₁)
        | (.ok _, st₁) => evalGo fuel (.blockList rest) env st₁
        | other => other
    | .callRun params body cEnv pending collected =>
      match pending with
      | a :: rest =>
        match evalGo fuel (.expr a) env st with
        | (.ok v, st₁) =>
          evalGo fuel (.callRun params body cEnv rest (v :: collected)) env st₁
        | other => other
      | [] =>
        let pr := extendEnv cEnv st
        let st₂ := defineParams pr.2 pr.1 params collected.reverse
        evalGo fuel (.stmt (.block body)) pr.1 st₂

/-- Evaluate an expression node (the expression cases of Eval). -/
def evalExpr (fuel : Nat) (e : Expr) (env : Nat) (st : EnvStore) : EvalResult × EnvStore :=
  evalGo fuel (.expr e) env st

/-- Evaluate a statement node (the statement cases of Eval). -/
def evalStmt (fuel : Nat) (s : Stmt) (env : Nat) (st : EnvStore) : EvalResult × EnvStore :=
  evalGo fuel (.stmt s) env st

/-- The statement loop of evalBlockStatement, in the already-extended block
environment: stops on the first Error or Return sentinel, otherwise no value. -/
def evalBlockList (fuel : Nat) (ss : List Stmt) (env : Nat) (st : EnvStore) :
    EvalResult × EnvStore :=
  evalGo fuel (.blockList ss) env st

/-- The in-progress call of evalCallExpression: evaluate the pending argument
expressions left to right, appending every result to the collected list, then
execute the function body. -/
def runCall (fuel : Nat) (params : List String) (body : List Stmt) (cEnv : Nat)
    (pending : List Expr) (collected : List (Option Object)) (env : Nat) (st : EnvStore) :
    EvalResult × EnvStore :=
  evalGo fuel (.callRun params body cEnv pending collected) env st

/-- Modelled from the spec: FunctionObject.Execute (objects.go is not under
src/) binds the parameters in a fresh child of the captured environment and
evaluates the body block there. -/
def funcExecute (fuel : Nat) (params : List String) (body : List Stmt) (cEnv : Nat)
    (args : List (Option Object)) (st : EnvStore) : EvalResult × EnvStore :=
  match fuel with
  | 0 => (.timeout, st)
  | fuel + 1 =>
    let pr := extendEnv cEnv st
    let st₂ := defineParams pr.2 pr.1 params args
    evalGo fuel (.stmt (.block body)) pr.1 st₂

/-- The statement loop of evalProgram: only the ErrorObject sentinel stops the
loop; every other result (a plain value or even a Return sentinel) is dropped
and evaluation continues; the program itself yields no value. -/
def evalProgramAux : Nat → List Stmt → Nat → EnvStore → EvalResult × EnvStore
  | 0, _, _, st => (.timeout, st)
  | _ + 1, [], _, st => (.ok none, st)
  | fuel + 1, s :: rest, env, st =>
    match evalGo fuel (.stmt s) env st with
    | (.ok (some (.error m)), st₁) => (.ok (some (.error m)), st₁)
    | (.ok _, st₁) => evalProgramAux fuel rest env st₁
    | other => other

/-- evalProgram from evaluator.go: extend the environment with the program
scope, then run the statement loop. -/
def evalProgram (fuel : Nat) (prog : List Stmt) (env : Nat) (st : EnvStore) :
    EvalResult × EnvStore :=
  let pr := extendEnv env st
  evalProgramAux fuel prog pr.1 pr.2

/-- The one root scope of a fresh Environment (NewEnvironment). -/
def initStore : EnvStore := [{ vars := [], parent := none }]

example : evalExpr 10 (.bin .plus (.intLit 5) (.intLit 5)) 0 initStore
    = (.ok (some (.integer 10)), initStore) := by rfl

example : evalExpr 10 (.unary .bang (.unary .bang (.intLit 0))) 0 initStore
    = (.ok (some (.boolean false)), initStore) := by rfl

example : evalExpr 10 (.bin .slash (.intLit 1) (.intLit 0)) 0 initStore
    = (.hostPanic "runtime error: integer divide by zero", initStore) := by rfl

/-
The statement parser (src/parser/statement_parser.go).  The token source,
Parser receiver methods (current, peek, consume, assertNext, error), the
Context type, the expression parser and the type parser live in files that are
not under src/; these are modelled from the spec, as noted on each definition.
Only the fragment exercised by the scope/redefinition claims is embedded:
function definitions, type definitions and member functions are not needed by
any claim and are omitted.
-/

/-- Token kinds used by the embedded parser fragment (token package). -/
inductive TokenType where
  | ttLet | ttIdent | ttInt | ttSemi | ttLBrace | ttRBrace
  | ttIf | ttElse | ttWhile | ttColon | ttDefine | ttAssign | ttReturn | ttEOF
deriving Repr, DecidableEq

/-- Tokens with their payload (kind plus literal). -/
inductive Token where
  | tLet
  | tIdent (s : String)
  | tInt (n : Int)
  | tSemi
  | tLBrace
  | tRBrace
  | tIf
  | tElse
  | tWhile
  | tColon
  | tDefine
  | tAssign
  | tReturn
  | tEOF
deriving Repr, DecidableEq

/-- The kind of a token. -/
def Token.type : Token → TokenType
  | .tLet => .ttLet
  | .tIdent _ => .ttIdent
  | .tInt _ => .ttInt
  | .tSemi => .ttSemi
  | .tLBrace => .ttLBrace
  | .tRBrace => .ttRBrace
  | .tIf => .ttIf
  | .tElse => .ttElse
  | .tWhile => .ttWhile
  | .tColon => .ttColon
  | .tDefine => .ttDefine
  | .tAssign => .ttAssign
  | .tReturn => .ttReturn
  | .tEOF => .ttEOF

/-- The identifier literal carried by a token (empty for non-identifiers). -/
def Token.literalOf : Token → String
  | .tIdent s => s
  | _ => ""

/-- Modelled from the spec: the Parser state over the token source (parser.go
is not under src/): the token stream, the cursor of `current`, and the
accumulated diagnostics (messages only; source positions are dropped). -/
structure ParserState where
  tokens : List Token
  pos : Nat
  errs : List String
deriving Repr

/-- Modelled from the spec: parser.current(), with EOF past the end. -/
def current (p : ParserState) : Token := p.tokens.getD p.pos .tEOF

/-- Modelled from the spec: parser.peek(), one-token lookahead. -/
def peek (p : ParserState) : Token := p.tokens.getD (p.pos + 1) .tEOF

/-- Modelled from the spec: the cursor advance of parser.consume(). -/
def advance (p : ParserState) : ParserState := { p with pos := p.pos + 1 }

/-- Modelled from the spec: parser.error(...) records a diagnostic. -/
def addErr (p : ParserState) (msg : String) : ParserState :=
  { p with errs := p.errs ++ [msg] }

/-- Modelled from the spec: parser.assertNext(tokenType) advances onto the next
token when it has the expected kind, otherwise records a diagnostic. -/
def assertNext (p : ParserState) (tt : TokenType) : ParserState × Bool :=
  if (peek p).type == tt then (advance p, true)
  else (addErr p "unexpected token", false)

/-- Modelled from the spec: the static types of the type system fragment
needed by let-statement checking (types.go is not under src/). -/
inductive Ty where
  | int
  | nullT
  | never
deriving Repr, DecidableEq

/-- Modelled from the spec: Type.IsAssignable on the embedded fragment; the
bottom type is assignable to everything, otherwise variant-exact. -/
def tyAssignable (target source : Ty) : Bool :=
  source == .never || target == source

/-- Modelled from the spec: the compile-time Context (context.go is not under
src/): a chain of scopes mapping names to static types, innermost scope first. -/
abbrev Ctx := List (List (String × Ty))

/-- One-scope lookup of a name's static type. -/
def lookupTy : List (String × Ty) → String → Option Ty
  | [], _ => none
  | (k, v) :: rest, name => if k == name then some v else lookupTy rest name

/-- Modelled from the spec: Context.GetInThisScope checks the current scope
only (the shadowing check of parseLetStatement). -/
def getInThisScope (ctx : Ctx) (name : String) : Option Ty :=
  match ctx with
  | [] => none
  | sc :: _ => lookupTy sc name

/-- Modelled from the spec: Context.Define inserts into the current scope. -/
def ctxDefine (ctx : Ctx) (name : String) (ty : Ty) : Ctx :=
  match ctx with
  | [] => [[(name, ty)]]
  | sc :: rest => ((name, ty) :: sc) :: rest

/-- Modelled from the spec: ExtendContext pushes a fresh child scope. -/
def extendCtx (ctx : Ctx) : Ctx := [] :: ctx

/-- Modelled from the spec: the type inference `expr.Type(context)` of the
expression fragment: an integer literal has the Integer type, a null literal
the null type. -/
def exprType : Expr → Ctx → Ty
  | .intLit _, _ => .int
  | .nullLit, _ => .nullT
  | _, _ => .never

/-- Modelled from the spec: the precedence-climbing expression parser lives in
a file not under src/; the statements relevant to the scope claims only ever
contain integer-literal expressions, so only that case is modelled.  An
integer literal is returned with `current` left on its token, as the statement
parser expects; anything else records a diagnostic and yields nil. -/
def parseExpression (p : ParserState) (_ctx : Ctx) : Option Expr × ParserState :=
  match current p with
  | .tInt n => (some (.intLit n), p)
  | _ => (none, addErr p "Could not parse expression")

/-- Modelled from the spec: parseType records a diagnostic and yields nil on
the fragment (no program considered here carries a type annotation). -/
def parseType (p : ParserState) : Option Ty × ParserState :=
  (none, addErr p "Could not parse type")

/-- parseLetStatement from statement_parser.go: `let name[: T] = expr;`.
After the terminating semicolon is checked, a name already present in the
current scope records the redefinition diagnostic and discards the statement
(the context is left unchanged); otherwise the declared or inferred type is
defined in the current scope.  Deviation: when the (modelled) expression or
type parser yields nil the statement is discarded with the diagnostics already
recorded, where Go would carry the nil child along; no claim touches that
path.  The diagnostic text drops the quotes of the Go format string. -/
def parseLetStatement (p : ParserState) (ctx : Ctx) :
    Option Stmt × ParserState × Ctx :=
  match assertNext p .ttIdent with
  | (p₁, false) => (none, p₁, ctx)
  | (p₁, true) =>
    let name := (current p₁).literalOf
    if (peek p₁).type == .ttColon then
      -- `let name : T = expr;` — parser.consume(), then parseType
      let p₂ := advance p₁
      match parseType p₂ with
      | (none, p₃) => (none, p₃, ctx)
      | (some declared, p₃) =>
        parseLetTail p₃ ctx name (some declared) .ttAssign
    else
      parseLetTail p₁ ctx name none .ttDefine

where
  /-- The rest of parseLetStatement after the optional type annotation:
  the initializer, the semicolon, the redefinition check, assignability
  and the definition in the current scope. -/
  parseLetTail (p : ParserState) (ctx : Ctx) (name : String)
      (declared : Option Ty) (assignTok : TokenType) :
      Option Stmt × ParserState × Ctx :=
    let (valueOpt, p₂) :=
      if (peek p).type != .ttSemi then
        match assertNext p assignTok with
        | (p₁, false) => (none, p₁)
        | (p₁, true) => parseExpression (advance p₁) ctx
      else (some .nullLit, p)
    match valueOpt with
    | none =>
      match assertNext p₂ .ttSemi with
      | (p₃, _) => (none, p₃, ctx)
    | some value =>
      match assertNext p₂ .ttSemi with
      | (p₃, false) => (none, p₃, ctx)
      | (p₃, true) =>
        if (getInThisScope ctx name).isSome then
          (none, addErr p₃ ("Cannot redefine " ++ name), ctx)
        else
          let inferred := exprType value ctx
          match declared with
          | none => (some (.letStmt name value), p₃, ctxDefine ctx name inferred)
          | some declTy =>
            if !tyAssignable declTy inferred then (none, p₃, ctx)
            else (some (.letStmt name value), p₃, ctxDefine ctx name declTy)

/-- parseReturnStatement from statement_parser.go (on the expression
fragment). -/
def parseReturnStatement (p : ParserState) (ctx : Ctx) :
    Option Stmt × ParserState :=
  let p₁ := advance p
  if (current p₁).type == .ttSemi then (some (.returnStmt .voidLit), p₁)
  else
    match parseExpression p₁ ctx with
    | (none, p₂) =>
      match assertNext p₂ .ttSemi with
      | (p₃, _) => (none, p₃)
    | (some e, p₂) =>
      match assertNext p₂ .ttSemi with
      | (p₃, false) => (none, p₃)
      | (p₃, true) => (some (.returnStmt e), p₃)

/-- parseExpressionStatement from statement_parser.go (on the expression
fragment). -/
def parseExpressionStatement (p : ParserState) (ctx : Ctx) :
    Option Stmt × ParserState :=
  match parseExpression p ctx with
  | (none, p₁) =>
    match assertNext p₁ .ttSemi with
    | (p₂, _) => (none, p₂)
  | (some e, p₁) =>
    match assertNext p₁ .ttSemi with
    | (p₂, false) => (none, p₂)
    | (p₂, true) => (some (.exprStmt e), p₂)

/-- A parsing task: one statement (parseStatement) or the statement loop of a
block body (the loop of parseBlockStatement, which stops at RBrace or EOF). -/
inductive ParseTask where
  | stmt
  | blockItems
deriving Repr

/-- parseStatement and the parseBlockStatement loop from
statement_parser.go, with fuel making the recursion structural.  A statement
result is a list of zero (discarded / nil statement) or one statements.
Crucial detail of the source: the case for `{` calls parseBlockStatement with
the SAME context (no ExtendContext), while the if/while bodies are parsed in
an extended child context; block-internal definitions therefore live in the
enclosing scope.  Deviation: an if/while whose condition or body statement is
nil is discarded (Go keeps the node with nil children); no claim touches
malformed conditions or bodies. -/
def parseGo : Nat → ParseTask → ParserState → Ctx → List Stmt × ParserState × Ctx
  | 0, _, p, ctx => ([], p, ctx)
  | fuel + 1, .stmt, p, ctx =>
    match (current p).type with
    | .ttLet =>
      match parseLetStatement p ctx with
      | (some s, p₁, ctx₁) => ([s], p₁, ctx₁)
      | (none, p₁, ctx₁) => ([], p₁, ctx₁)
    | .ttReturn =>
      match parseReturnStatement p ctx with
      | (some s, p₁) => ([s], p₁, ctx)
      | (none, p₁) => ([], p₁, ctx)
    | .ttLBrace =>
      -- openingBrace := parser.consume(); loop; then the closing-brace check
      let p₁ := advance p
      match parseGo fuel .blockItems p₁ ctx with
      | (items, p₂, ctx₂) =>
        if (current p₂).type == .ttRBrace then ([.block items], p₂, ctx₂)
        else ([.block items], addErr p₂ "Unclosed block", ctx₂)
    | .ttIf =>
      let p₁ := advance p
      let (condOpt, p₂) := parseExpression p₁ ctx
      let p₃ := advance p₂
      match parseGo fuel .stmt p₃ (extendCtx ctx) with
      | (thenL, p₄, _) =>
        if (peek p₄).type == .ttElse then
          let p₅ := advance (advance p₄)
          match parseGo fuel .stmt p₅ (extendCtx ctx) with
          | (elseL, p₆, _) =>
            match condOpt, thenL with
            | some c, [t] => ([.ifStmt c t elseL.head?], p₆, ctx)
            | _, _ => ([], p₆, ctx)
        else
          match condOpt, thenL with
          | some c, [t] => ([.ifStmt c t none], p₄, ctx)
          | _, _ => ([], p₄, ctx)
    | .ttWhile =>
      let p₁ := advance p
      let (condOpt, p₂) := parseExpression p₁ ctx
      let p₃ := advance p₂
      match parseGo fuel .stmt p₃ (extendCtx ctx) with
      | (bodyL, p₄, _) =>
        match condOpt, bodyL with
        | some c, [b] => ([.whileStmt c b], p₄, ctx)
        | _, _ => ([], p₄, ctx)
    | _ =>
      match parseExpressionStatement p ctx with
      | (some s, p₁) => ([s], p₁, ctx)
      | (none, p₁) => ([], p₁, ctx)
  | fuel + 1, .blockItems, p, ctx =>
    match (current p).type with
    | .ttEOF => ([], p, ctx)
    | .ttRBrace => ([], p, ctx)
    | .ttSemi => parseGo fuel .blockItems (advance p) ctx
    | _ =>
      match parseGo fuel .stmt p ctx with
      | (sL, p₁, ctx₁) =>
        let p₂ := advance p₁
        match parseGo fuel .blockItems p₂ ctx₁ with
        | (rest, p₃, ctx₂) => (sL ++ rest, p₃, ctx₂)

/-- Modelled from the spec: ParseProgram drives parseStatement until EOF,
skipping stray semicolons and discarded statements, threading the one shared
program context, and collecting the diagnostics. -/
def parseProgramAux : Nat → ParserState → Ctx → List Stmt × ParserState × Ctx
  | 0, p, ctx => ([], p, ctx)
  | fuel + 1, p, ctx =>
    match (current p).type with
    | .ttEOF => ([], p, ctx)
    | .ttSemi => parseProgramAux fuel (advance p) ctx
    | _ =>
      match parseGo fuel .stmt p ctx with
      | (sL, p₁, ctx₁) =>
        let p₂ := advance p₁
        match parseProgramAux fuel p₂ ctx₁ with
        | (rest, p₃, ctx₂) => (sL ++ rest, p₃, ctx₂)

/-- Modelled from the spec: the ParseProgram entry point on a fresh context
with a single (program) scope; yields the program statements and the ordered
diagnostics. -/
def parseProgram (tokens : List Token) : List Stmt × List String :=
  match parseProgramAux (tokens.length + 1) { tokens := tokens, pos := 0, errs := [] } [[]] with
  | (ss, p, _) => (ss, p.errs)

/-
Concrete token programs for the scope and redefinition claims.
-/

/-- Tokens of `let x = 1 ; let x = 2 ;`. -/
def tokensSameScope : List Token :=
  [.tLet, .tIdent "x", .tDefine, .tInt 1, .tSemi,
   .tLet, .tIdent "x", .tDefine, .tInt 2, .tSemi, .tEOF]

/-- Tokens of `let x = 1 ; { let x = 2 ; }` (a bare nested block). -/
def tokensShadowBareBlock : List Token :=
  [.tLet, .tIdent "x", .tDefine, .tInt 1, .tSemi,
   .tLBrace, .tLet, .tIdent "x", .tDefine, .tInt 2, .tSemi, .tRBrace, .tEOF]

/-- Tokens of `let x = 1 ; if 1 { let x = 2 ; }` (an if-body block). -/
def tokensShadowIfBody : List Token :=
  [.tLet, .tIdent "x", .tDefine, .tInt 1, .tSemi,
   .tIf, .tInt 1, .tLBrace, .tLet, .tIdent "x", .tDefine, .tInt 2, .tSemi, .tRBrace, .tEOF]

/-- Tokens of `let x = 1 ; while 1 { let x = 2 ; }` (a while-body block). -/
def tokensShadowWhileBody : List Token :=
  [.tLet, .tIdent "x", .tDefine, .tInt 1, .tSemi,
   .tWhile, .tInt 1, .tLBrace, .tLet, .tIdent "x", .tDefine, .tInt 2, .tSemi, .tRBrace, .tEOF]

/-
Supporting lemmas: the assignment walk of the environment writes exactly where
the lookup walk finds the name.
-/

lemma assignVars_of_lookup_some {l : List (String × Option Object)} {name : String}
    {v : Option Object} (w : Option Object) (h : lookupVars l name = some v) :
    ∃ l₂, assignVars l name w = some l₂ ∧ lookupVars l₂ name = some w := by
  induction l with
  | nil => simp [lookupVars] at h
  | cons kv rest ih =>
    obtain ⟨k, u⟩ := kv
    by_cases hk : (k == name) = true
    · exact ⟨(k, w) :: rest, by simp [assignVars, hk], by simp [lookupVars, hk]⟩
    · simp only [lookupVars, hk, if_false] at h
      obtain ⟨l₂, ha, hl⟩ := ih h
      exact ⟨(k, u) :: l₂, by simp [assignVars, hk, ha], by simp [lookupVars, hk, hl]⟩

lemma assignVars_of_lookup_none {l : List (String × Option Object)} {name : String}
    (w : Option Object) (h : lookupVars l name = none) :
    assignVars l name w = none := by
  induction l with
  | nil => rfl
  | cons kv rest ih =>
    obtain ⟨k, u⟩ := kv
    by_cases hk : (k == name) = true
    · simp [lookupVars, hk] at h
    · simp only [lookupVars, hk, if_false] at h
      simp [assignVars, hk, ih h]

lemma getObjectAux_assign {name : String} (w : Option Object) :
    ∀ (gas : Nat) (st : EnvStore) (ref : Nat) (v : Option Object),
      getObjectAux gas st ref name = some v →
      ∃ st₂, assignObjectAux gas st ref name w = some st₂
        ∧ st₂.length = st.length
        ∧ getObjectAux gas st₂ ref name = some w
        ∧ ∀ j sc, st.get? j = some sc → lookupVars sc.vars name = none →
            st₂.get? j = some sc := by
  intro gas
  induction gas with
  | zero => intro st ref v h; simp [getObjectAux] at h
  | succ gas ih =>
    intro st ref v h
    simp only [getObjectAux] at h
    cases hsc : st.get? ref with
    | none => rw [hsc] at h; exact absurd h (by simp)
    | some sc =>
      rw [hsc] at h
      cases hl : lookupVars sc.vars name with
      | some u =>
        simp only [hl] at h
        obtain ⟨vars₂, ha, hl₂⟩ := assignVars_of_lookup_some w hl
        refine ⟨st.set ref { sc with vars := vars₂ }, ?_, ?_, ?_, ?_⟩
        · simp only [assignObjectAux, hsc, ha]
        · exact List.length_set st ref _
        · have hget : (st.set ref { sc with vars := vars₂ }).get? ref
              = some { sc with vars := vars₂ } := by
            rw [List.get?_set_eq, hsc]
            rfl
          simp only [getObjectAux, hget, hl₂]
        · intro j scj hj hlj
          by_cases hjr : ref = j
          · subst hjr
            rw [hsc] at hj
            cases hj
            rw [hl] at hlj
            cases hlj
          · rw [List.get?_set_ne _ st hjr]
            exact hj
      | none =>
        simp only [hl] at h
        cases hp : sc.parent with
        | none => simp only [hp] at h; exact absurd h (by simp)
        | some p =>
          simp only [hp] at h
          obtain ⟨st₂, ha, hlen, hget, hkeep⟩ := ih st p v h
          refine ⟨st₂, ?_, hlen, ?_, hkeep⟩
          · simp only [assignObjectAux, hsc, assignVars_of_lookup_none w hl, hp, ha]
          · have hscr : st₂.get? ref = some sc := hkeep ref sc hsc hl
            simp only [getObjectAux, hscr, hl, hp, hget]

lemma getObject_assign {st : EnvStore} {ref : Nat} {name : String} {v : Option Object}
    (w : Option Object) (h : getObject st ref name = some v) :
    ∃ st₂, assignObject st ref name w = some st₂
      ∧ st₂.length = st.length
      ∧ getObject st₂ ref name = some w := by
  obtain ⟨st₂, ha, hlen, hget, _⟩ := getObjectAux_assign w st.length st ref v h
  refine ⟨st₂, ha, hlen, ?_⟩
  unfold getObject
  rw [hlen]
  exact hget

/-
Claim theorems.
-/

lemma wrap64_eq_self {n : Int} (h₁ : -(2 ^ 63) ≤ n) (h₂ : n < 2 ^ 63) : wrap64 n = n := by
  unfold wrap64
  have : (n + 2 ^ 63) % 2 ^ 64 = n + 2 ^ 63 := by
    apply Int.emod_eq_of_lt
    · omega
    · omega
  omega

/-- C1: Integer division `a / b` with nonzero `b` computes the truncated
(toward-zero) quotient, but `a / 0` is executed as a native Go division and
panics: an uncontrolled host-level failure, not the language-level Error
sentinel the claim requires.  Shown here: two truncating quotients and the
concrete `1 / 0` evaluation, whose outcome is the hostPanic result rather than
any `.ok` Object. -/
theorem c1_integer_division_by_zero_panics :
    evalExpr 10 (.bin .slash (.intLit 7) (.intLit 2)) 0 initStore
      = (.ok (some (.integer 3)), initStore)
    ∧ evalExpr 10 (.bin .slash (.intLit (-7)) (.intLit 2)) 0 initStore
      = (.ok (some (.integer (-3))), initStore)
    ∧ evalExpr 10 (.bin .slash (.intLit 1) (.intLit 0)) 0 initStore
      = (.hostPanic "runtime error: integer divide by zero", initStore) :=
  ⟨rfl, rfl, rfl⟩

/-- C5: Truthiness used by `!`, the logical operators and the if/while
conditions: a Boolean converts to its own value, an Integer or Float to true
iff nonzero, a String to true iff nonempty, and Null and Function values (like
every remaining variant) to true; consequently `!!0` evaluates to
Boolean(false). -/
theorem c5_truthiness_table :
    (∀ b : Bool, implicitBoolConversion (some (.boolean b)) = b)
    ∧ (∀ n : Int, implicitBoolConversion (some (.integer n)) = true ↔ n ≠ 0)
    ∧ (∀ q : Rat, implicitBoolConversion (some (.float q)) = true ↔ q ≠ 0)
    ∧ (∀ s : String, implicitBoolConversion (some (.str s)) = true ↔ s ≠ "")
    ∧ implicitBoolConversion (some .null) = true
    ∧ (∀ params body envRef,
        implicitBoolConversion (some (.function params body envRef)) = true)
    ∧ evalExpr 10 (.unary .bang (.unary .bang (.intLit 0))) 0 initStore
      = (.ok (some (.boolean false)), initStore) := by
  refine ⟨fun b => rfl, fun n => ?_, fun q => ?_, fun s => ?_, rfl, fun _ _ _ => rfl, rfl⟩
  · simp [implicitBoolConversion]
  · simp [implicitBoolConversion]
  · simp only [implicitBoolConversion, bne_iff_ne, ne_eq]
    constructor
    · intro h he
      subst he
      simp [String.length] at h
    · intro h hl
      apply h
      cases s with
      | mk data =>
        cases data with
        | nil => rfl
        | cons c cs => simp [String.length] at hl

/-- C6: Numeric promotion in evalNumericInfix: when one operand is an Integer
object and the other a Float object, the Integer value is promoted and the
operation is performed on two floats, so the arithmetic operators produce a
Float object carrying the promoted computation and the comparison operators
compare the promoted values; two Integer operands produce an Integer object
(under Go int64 wrap-around, and with a nonzero divisor for division).
Float values are idealised as exact rationals. -/
theorem c6_numeric_promotion :
    ∀ (i : Int) (q : Rat),
      (applyBinOp .plus (some (.integer i)) (some (.float q))
          = .ok (some (.float ((i : Rat) + q)))
        ∧ applyBinOp .plus (some (.float q)) (some (.integer i))
          = .ok (some (.float (q + (i : Rat))))
        ∧ applyBinOp .minus (some (.integer i)) (some (.float q))
          = .ok (some (.float ((i : Rat) - q)))
        ∧ applyBinOp .minus (some (.float q)) (some (.integer i))
          = .ok (some (.float (q - (i : Rat))))
        ∧ applyBinOp .star (some (.integer i)) (some (.float q))
          = .ok (some (.float ((i : Rat) * q)))
        ∧ applyBinOp .star (some (.float q)) (some (.integer i))
          = .ok (some (.float (q * (i : Rat))))
        ∧ applyBinOp .slash (some (.integer i)) (some (.float q))
          = .ok (some (.float ((i : Rat) / q)))
        ∧ applyBinOp .slash (some (.float q)) (some (.integer i))
          = .ok (some (.float (q / (i : Rat)))))
      ∧ (applyBinOp .lt (some (.integer i)) (some (.float q))
          = .ok (some (.boolean (decide ((i : Rat) < q))))
        ∧ applyBinOp .gt (some (.integer i)) (some (.float q))
          = .ok (some (.boolean (decide ((i : Rat) > q))))
        ∧ applyBinOp .lte (some (.integer i)) (some (.float q))
          = .ok (some (.boolean (decide ((i : Rat) ≤ q))))
        ∧ applyBinOp .gte (some (.integer i)) (some (.float q))
          = .ok (some (.boolean (decide ((i : Rat) ≥ q))))
        ∧ applyBinOp .lt (some (.float q)) (some (.integer i))
          = .ok (some (.boolean (decide (q < (i : Rat)))))
        ∧ applyBinOp .gt (some (.float q)) (some (.integer i))
          = .ok (some (.boolean (decide (q > (i : Rat)))))
        ∧ applyBinOp .lte (some (.float q)) (some (.integer i))
          = .ok (some (.boolean (decide (q ≤ (i : Rat)))))
        ∧ applyBinOp .gte (some (.float q)) (some (.integer i))
          = .ok (some (.boolean (decide (q ≥ (i : Rat))))))
      ∧ (∀ j : Int,
          applyBinOp .plus (some (.integer i)) (some (.integer j))
            = .ok (some (.integer (wrap64 (i + j))))
          ∧ applyBinOp .minus (some (.integer i)) (some (.integer j))
            = .ok (some (.integer (wrap64 (i - j))))
          ∧ applyBinOp .star (some (.integer i)) (some (.integer j))
            = .ok (some (.integer (wrap64 (i * j))))
          ∧ (j ≠ 0 →
            applyBinOp .slash (some (.integer i)) (some (.integer j))
              = .ok (some (.integer (wrap64 (Int.tdiv i j))))))
      ∧ evalExpr 10 (.bin .plus (.intLit 1) (.floatLit (3 / 2))) 0 initStore
        = (.ok (some (.float (5 / 2))), initStore) := by
  intro i q
  refine ⟨⟨rfl, rfl, rfl, rfl, rfl, rfl, rfl, rfl⟩,
    ⟨rfl, rfl, rfl, rfl, rfl, rfl, rfl, rfl⟩,
    fun j => ⟨rfl, rfl, rfl, fun hj => ?_⟩, ?_⟩
  · simp [applyBinOp, evalNumericBin, hj]
  · simp only [evalExpr, evalGo, applyBinOp, evalNumericBin, isError, isStr,
      implicitBoolConversion, Bool.false_or, Bool.or_false, beq_self_eq_true]
    norm_num
    simp

/-- C4: Logical short-circuiting in evalInfixExpression: when the left operand
of `&&` evaluates to a falsy (non-Error) value, or the left operand of `||`
evaluates to a truthy (non-Error) value, the result is the corresponding
Boolean and the right operand is never evaluated: the store after the whole
expression is exactly the store after the left operand, for every right
operand expression. -/
theorem c4_logical_short_circuit :
    ∀ (fuel : Nat) (l r : Expr) (env : Nat) (st st₁ : EnvStore) (lv : Option Object),
      evalExpr fuel l env st = (.ok lv, st₁) → isError lv = false →
      (implicitBoolConversion lv = false →
        evalExpr (fuel + 1) (.bin .land l r) env st = (.ok (some (.boolean false)), st₁))
      ∧ (implicitBoolConversion lv = true →
        evalExpr (fuel + 1) (.bin .lor l r) env st = (.ok (some (.boolean true)), st₁)) := by
  intro fuel l r env st st₁ lv h he
  constructor
  · intro hc
    show evalGo (fuel + 1) (.expr (.bin .land l r)) env st = _
    simp only [evalGo]
    rw [show evalGo fuel (.expr l) env st = (.ok lv, st₁) from h]
    simp [he, hc]
  · intro hc
    show evalGo (fuel + 1) (.expr (.bin .lor l r)) env st = _
    simp only [evalGo]
    rw [show evalGo fuel (.expr l) env st = (.ok lv, st₁) from h]
    simp [he, hc]

/-- C10: When `&&` or `||` is not short-circuited on its left operand, the
result is a freshly constructed Boolean object carrying the truthiness of the
right operand's (non-Error) value, never one of the operand values themselves,
whatever the operand types are. -/
theorem c10_logical_result_fresh_boolean :
    ∀ (fuel : Nat) (l r : Expr) (env : Nat) (st st₁ st₂ : EnvStore) (lv rv : Option Object),
      evalExpr fuel l env st = (.ok lv, st₁) → isError lv = false →
      evalExpr fuel r env st₁ = (.ok rv, st₂) → isError rv = false →
      (implicitBoolConversion lv = true →
        evalExpr (fuel + 1) (.bin .land l r) env st
          = (.ok (some (.boolean (implicitBoolConversion rv))), st₂))
      ∧ (implicitBoolConversion lv = false →
        evalExpr (fuel + 1) (.bin .lor l r) env st
          = (.ok (some (.boolean (implicitBoolConversion rv))), st₂)) := by
  intro fuel l r env st st₁ st₂ lv rv hl hle hr hre
  constructor
  · intro hc
    show evalGo (fuel + 1) (.expr (.bin .land l r)) env st = _
    simp only [evalGo]
    rw [show evalGo fuel (.expr l) env st = (.ok lv, st₁) from hl]
    simp only [hle, hc, Bool.not_true, Bool.and_false, Bool.false_eq_true, if_false,
      Bool.ite_eq_true_distrib]
    rw [show evalGo fuel (.expr r) env st₁ = (.ok rv, st₂) from hr]
    simp [hre]
  · intro hc
    show evalGo (fuel + 1) (.expr (.bin .lor l r)) env st = _
    simp only [evalGo]
    rw [show evalGo fuel (.expr l) env st = (.ok lv, st₁) from hl]
    simp only [hle, hc, Bool.and_false, if_false]
    rw [show evalGo fuel (.expr r) env st₁ = (.ok rv, st₂) from hr]
    simp [hre]

lemma evalProgramAux_ok_some {o : Object} :
    ∀ (fuel : Nat) (prog : List Stmt) (env : Nat) (st st₁ : EnvStore),
      evalProgramAux fuel prog env st = (.ok (some o), st₁) → ∃ m, o = .error m := by
  intro fuel
  induction fuel with
  | zero =>
    intro prog env st st₁ h
    simp [evalProgramAux] at h
  | succ fuel ih =>
    intro prog env st st₁ h
    cases prog with
    | nil => simp [evalProgramAux] at h
    | cons s rest =>
      simp only [evalProgramAux] at h
      cases hres : evalGo fuel (.stmt s) env st with
      | mk r st₂ =>
        rw [hres] at h
        cases r with
        | ok v =>
          cases v with
          | none => exact ih rest env st₂ st₁ h
          | some obj =>
            cases obj
            case error m =>
              simp only [Prod.mk.injEq, EvalResult.ok.injEq, Option.some.injEq] at h
              exact ⟨m, h.1.symm⟩
            all_goals exact ih rest env st₂ st₁ h
        | hostPanic m => simp at h
        | timeout => simp at h

/-- C9: Evaluating a whole Program yields either no value or the Error
sentinel, never any other Object (the value of every statement, including the
last, is discarded), and a Return sentinel produced by a top-level statement
is silently dropped: the program loop simply continues with the remaining
statements. -/
theorem c9_program_result_nil_or_error :
    (∀ (fuel : Nat) (prog : List Stmt) (env : Nat) (st st₁ : EnvStore) (o : Object),
      evalProgram fuel prog env st = (.ok (some o), st₁) → ∃ m, o = .error m)
    ∧ (∀ (fuel : Nat) (s : Stmt) (rest : List Stmt) (env : Nat) (st st₁ : EnvStore)
        (v : Option Object),
      evalStmt fuel s env st = (.ok (some (.ret v)), st₁) →
      evalProgramAux (fuel + 1) (s :: rest) env st = evalProgramAux fuel rest env st₁) := by
  constructor
  · intro fuel prog env st st₁ o h
    exact evalProgramAux_ok_some fuel prog (extendEnv env st).1 (extendEnv env st).2 st₁ h
  · intro fuel s rest env st st₁ v h
    simp only [evalProgramAux]
    rw [show evalGo fuel (.stmt s) env st = (.ok (some (.ret v)), st₁) from h]

/-- C3: The Return sentinel propagates unchanged: a statement of a block
yielding the Return sentinel stops the block loop and the block statement with
that very sentinel; the chosen branch of an if and the body of a while yielding
the sentinel surface it unchanged; and a function call unwraps the sentinel
exactly once, its result being precisely the wrapped inner value of the
sentinel the body evaluation produced. -/
theorem c3_return_sentinel_propagation :
    (∀ (fuel : Nat) (s : Stmt) (rest : List Stmt) (env : Nat) (st st₁ : EnvStore)
        (v : Option Object),
      evalStmt fuel s env st = (.ok (some (.ret v)), st₁) →
      evalBlockList (fuel + 1) (s :: rest) env st = (.ok (some (.ret v)), st₁))
    ∧ (∀ (fuel : Nat) (ss : List Stmt) (env : Nat) (st st₁ : EnvStore) (v : Option Object),
      evalBlockList fuel ss (extendEnv env st).1 (extendEnv env st).2
        = (.ok (some (.ret v)), st₁) →
      evalStmt (fuel + 1) (.block ss) env st = (.ok (some (.ret v)), st₁))
    ∧ (∀ (fuel : Nat) (cond : Expr) (thens : Stmt) (alt : Option Stmt) (env : Nat)
        (st st₁ st₂ : EnvStore) (cv v : Option Object),
      evalExpr fuel cond env st = (.ok cv, st₁) → isError cv = false →
      implicitBoolConversion cv = true →
      evalStmt fuel thens (extendEnv env st₁).1 (extendEnv env st₁).2
        = (.ok (some (.ret v)), st₂) →
      evalStmt (fuel + 1) (.ifStmt cond thens alt) env st = (.ok (some (.ret v)), st₂))
    ∧ (∀ (fuel : Nat) (cond : Expr) (thens alternative : Stmt) (env : Nat)
        (st st₁ st₂ : EnvStore) (cv v : Option Object),
      evalExpr fuel cond env st = (.ok cv, st₁) → isError cv = false →
      implicitBoolConversion cv = false →
      evalStmt fuel alternative (extendEnv env st₁).1 (extendEnv env st₁).2
        = (.ok (some (.ret v)), st₂) →
      evalStmt (fuel + 1) (.ifStmt cond thens (some alternative)) env st
        = (.ok (some (.ret v)), st₂))
    ∧ (∀ (fuel : Nat) (cond : Expr) (body : Stmt) (env : Nat)
        (st st₁ st₂ : EnvStore) (cv v : Option Object),
      evalExpr fuel cond env st = (.ok cv, st₁) → isError cv = false →
      implicitBoolConversion cv = true →
      evalStmt fuel body (extendEnv env st₁).1 (extendEnv env st₁).2
        = (.ok (some (.ret v)), st₂) →
      evalStmt (fuel + 1) (.whileStmt cond body) env st = (.ok (some (.ret v)), st₂))
    ∧ (∀ (fuel : Nat) (fnE : Expr) (args : List Expr) (env : Nat)
        (st st₁ st₂ : EnvStore) (params : List String) (body : List Stmt) (cEnv : Nat)
        (v : Option Object),
      evalExpr fuel fnE env st = (.ok (some (.function params body cEnv)), st₁) →
      runCall fuel params body cEnv args [] env st₁ = (.ok (some (.ret v)), st₂) →
      evalExpr (fuel + 1) (.call fnE args) env st = (.ok v, st₂)) := by
  refine ⟨?_, ?_, ?_, ?_, ?_, ?_⟩
  · intro fuel s rest env st st₁ v h
    show evalGo (fuel + 1) (.blockList (s :: rest)) env st = _
    simp only [evalGo]
    rw [show evalGo fuel (.stmt s) env st = (.ok (some (.ret v)), st₁) from h]
  · intro fuel ss env st st₁ v h
    show evalGo (fuel + 1) (.stmt (.block ss)) env st = _
    simp only [evalGo]
    exact h
  · intro fuel cond thens alt env st st₁ st₂ cv v hc he ht hb
    show evalGo (fuel + 1) (.stmt (.ifStmt cond thens alt)) env st = _
    simp only [evalGo]
    rw [show evalGo fuel (.expr cond) env st = (.ok cv, st₁) from hc]
    simp only [he, ht, if_false, if_true, Bool.false_eq_true]
    rw [show evalGo fuel (.stmt thens) (extendEnv env st₁).1 (extendEnv env st₁).2
        = (.ok (some (.ret v)), st₂) from hb]
  · intro fuel cond thens alternative env st st₁ st₂ cv v hc he ht hb
    show evalGo (fuel + 1) (.stmt (.ifStmt cond thens (some alternative))) env st = _
    simp only [evalGo]
    rw [show evalGo fuel (.expr cond) env st = (.ok cv, st₁) from hc]
    simp only [he, ht, if_false, Bool.false_eq_true]
    rw [show evalGo fuel (.stmt alternative) (extendEnv env st₁).1 (extendEnv env st₁).2
        = (.ok (some (.ret v)), st₂) from hb]
  · intro fuel cond body env st st₁ st₂ cv v hc he ht hb
    show evalGo (fuel + 1) (.stmt (.whileStmt cond body)) env st = _
    simp only [evalGo]
    rw [show evalGo fuel (.expr cond) env st = (.ok cv, st₁) from hc]
    simp only [he, ht, Bool.not_true, if_false, Bool.false_eq_true]
    rw [show evalGo fuel (.stmt body) (extendEnv env st₁).1 (extendEnv env st₁).2
        = (.ok (some (.ret v)), st₂) from hb]
  · intro fuel fnE args env st st₁ st₂ params body cEnv v hf hr
    show evalGo (fuel + 1) (.expr (.call fnE args)) env st = _
    simp only [evalGo]
    rw [show evalGo fuel (.expr fnE) env st
        = (.ok (some (.function params body cEnv)), st₁) from hf]
    dsimp only
    rw [show evalGo fuel (.callRun params body cEnv args []) env st₁
        = (.ok (some (.ret v)), st₂) from hr]

lemma set_append_length {α : Type} (l : List α) (a b : α) :
    (l ++ [a]).set l.length b = l ++ [b] := by
  induction l with
  | nil => rfl
  | cons x xs ih => simp [List.set, ih]

lemma evalGo_ident_step {fuel env : Nat} {name : String} {st : EnvStore}
    {v : Option Object} (h : getObject st env name = some v) :
    evalGo (fuel + 1) (.expr (.ident name)) env st = (.ok v, st) := by
  simp only [evalGo, h]

lemma evalGo_intLit_step {fuel env : Nat} {n : Int} {st : EnvStore} :
    evalGo (fuel + 1) (.expr (.intLit n)) env st = (.ok (some (.integer n)), st) := rfl

lemma evalGo_call_function_step {fuel env : Nat} {fn : Expr} {args : List Expr}
    {st st₁ : EnvStore} {params : List String} {body : List Stmt} {cEnv : Nat}
    (h : evalGo fuel (.expr fn) env st = (.ok (some (.function params body cEnv)), st₁)) :
    evalGo (fuel + 1) (.expr (.call fn args)) env st
      = match evalGo fuel (.callRun params body cEnv args []) env st₁ with
        | (.ok (some (.ret inner)), st₂) => (.ok inner, st₂)
        | other => other := by
  simp only [evalGo, h]

lemma evalGo_callRun_cons_step {fuel env : Nat} {params : List String} {body : List Stmt}
    {cEnv : Nat} {a : Expr} {rest : List Expr} {collected : List (Option Object)}
    {st st₁ : EnvStore} {v : Option Object}
    (h : evalGo fuel (.expr a) env st = (.ok v, st₁)) :
    evalGo (fuel + 1) (.callRun params body cEnv (a :: rest) collected) env st
      = evalGo fuel (.callRun params body cEnv rest (v :: collected)) env st₁ := by
  simp only [evalGo, h]

lemma evalGo_callRun_nil_step {fuel env : Nat} {params : List String} {body : List Stmt}
    {cEnv : Nat} {collected : List (Option Object)} {st : EnvStore} :
    evalGo (fuel + 1) (.callRun params body cEnv [] collected) env st
      = evalGo fuel (.stmt (.block body)) (extendEnv cEnv st).1
          (defineParams (extendEnv cEnv st).2 (extendEnv cEnv st).1 params
            collected.reverse) := rfl

lemma evalGo_block_step {fuel env : Nat} {ss : List Stmt} {st : EnvStore} :
    evalGo (fuel + 1) (.stmt (.block ss)) env st
      = evalGo fuel (.blockList ss) (extendEnv env st).1 (extendEnv env st).2 := rfl

lemma evalGo_blockList_ret_step {fuel env : Nat} {s : Stmt} {rest : List Stmt}
    {st st₁ : EnvStore} {v : Option Object}
    (h : evalGo fuel (.stmt s) env st = (.ok (some (.ret v)), st₁)) :
    evalGo (fuel + 1) (.blockList (s :: rest)) env st = (.ok (some (.ret v)), st₁) := by
  simp only [evalGo, h]

lemma evalGo_return_step {fuel env : Nat} {e : Expr} {st st₁ : EnvStore}
    {v : Option Object} (h : evalGo fuel (.expr e) env st = (.ok v, st₁))
    (he : isError v = false) :
    evalGo (fuel + 1) (.stmt (.returnStmt e)) env st = (.ok (some (.ret v)), st₁) := by
  simp only [evalGo, h, he]
  simp [he]

/-- C2: The argument loop of evalCallExpression performs no Error check: an
argument expression that evaluates to the Error sentinel has that Error
appended to the argument list like an ordinary value and evaluation proceeds
with the remaining arguments (first part); consequently a call whose callee is
the constant function `func(x) { return 42; }` still returns Integer(42) when
its argument evaluation produced an Error, instead of aborting with that Error
(second part, for an arbitrary erroring argument expression). -/
theorem c2_call_arguments_unchecked :
    (∀ (fuel : Nat) (params : List String) (body : List Stmt) (cEnv env : Nat)
        (a : Expr) (rest : List Expr) (collected : List (Option Object))
        (m : String) (st st₁ : EnvStore),
      evalExpr fuel a env st = (.ok (some (.error m)), st₁) →
      runCall (fuel + 1) params body cEnv (a :: rest) collected env st
        = runCall fuel params body cEnv rest (some (.error m) :: collected) env st₁)
    ∧ (∀ (k : Nat) (a : Expr) (m : String) (cEnv env : Nat) (st st₁ : EnvStore),
      getObject st env "f" = some (some (.function ["x"] [.returnStmt (.intLit 42)] cEnv)) →
      evalExpr (k + 5) a env st = (.ok (some (.error m)), st₁) →
      (evalExpr (k + 7) (.call (.ident "f") [a]) env st).1
        = .ok (some (.integer 42))) := by
  constructor
  · intro fuel params body cEnv env a rest collected m st st₁ ha
    show evalGo (fuel + 1) (.callRun params body cEnv (a :: rest) collected) env st = _
    simp only [evalGo]
    rw [show evalGo fuel (.expr a) env st = (.ok (some (.error m)), st₁) from ha]
    rfl
  · intro k a m cEnv env st st₁ hf ha
    show (evalGo (k + 7) (.expr (.call (.ident "f") [a])) env st).1 = _
    have hident : evalGo (k + 6) (.expr (.ident "f")) env st
        = (.ok (some (.function ["x"] [.returnStmt (.intLit 42)] cEnv)), st) :=
      evalGo_ident_step hf
    rw [show (k + 7) = (k + 6) + 1 from rfl, evalGo_call_function_step hident]
    have hargs : evalGo (k + 6) (.callRun ["x"] [.returnStmt (.intLit 42)] cEnv [a] []) env st
        = evalGo (k + 5) (.callRun ["x"] [.returnStmt (.intLit 42)] cEnv []
            [some (.error m)]) env st₁ :=
      evalGo_callRun_cons_step ha
    rw [hargs, show (k + 5 : Nat) = (k + 4) + 1 from rfl, evalGo_callRun_nil_step,
      show (k + 4 : Nat) = (k + 3) + 1 from rfl, evalGo_block_step]
    have hret : evalGo (k + 2)
        (.stmt (.returnStmt (.intLit 42)))
        (extendEnv (extendEnv cEnv st₁).1
          (defineParams (extendEnv cEnv st₁).2 (extendEnv cEnv st₁).1 ["x"]
            [some (.error m)].reverse)).1
        (extendEnv (extendEnv cEnv st₁).1
          (defineParams (extendEnv cEnv st₁).2 (extendEnv cEnv st₁).1 ["x"]
            [some (.error m)].reverse)).2
        = (.ok (some (.ret (some (.integer 42)))), _) :=
      evalGo_return_step evalGo_intLit_step rfl
    rw [show (k + 3 : Nat) = (k + 2) + 1 from rfl, evalGo_blockList_ret_step hret]

/-- C7: Increment and decrement: with `x` bound to Integer(5) anywhere in the
environment chain, the post-increment `x++` evaluates to Integer(5) (a fresh
object carrying the value captured before the mutation) and leaves the binding
of `x` at Integer(6); the pre-increment `++x` evaluates to Integer(6) and
leaves the binding at Integer(6); incrementing an unresolved identifier yields
the "Cannot resolve identifier" Error and incrementing a binding whose value
is neither Integer nor Float yields the "Cannot increment non-int" Error, in
both cases leaving the store unchanged. -/
theorem c7_increment_semantics :
    ∀ (st : EnvStore) (env fuel : Nat),
      (getObject st env "x" = some (some (.integer 5)) →
        (evalExpr (fuel + 1) (.increment "x" true false) env st).1
            = .ok (some (.integer 5))
          ∧ getObject (evalExpr (fuel + 1) (.increment "x" true false) env st).2 env "x"
            = some (some (.integer 6)))
      ∧ (getObject st env "x" = some (some (.integer 5)) →
        (evalExpr (fuel + 1) (.increment "x" true true) env st).1
            = .ok (some (.integer 6))
          ∧ getObject (evalExpr (fuel + 1) (.increment "x" true true) env st).2 env "x"
            = some (some (.integer 6)))
      ∧ (∀ (isInc isPre : Bool), getObject st env "x" = none →
          evalExpr (fuel + 1) (.increment "x" isInc isPre) env st
            = (.ok (some (.error "Cannot resolve identifier")), st))
      ∧ (∀ (isInc isPre : Bool) (v : Option Object), getObject st env "x" = some v →
          (∀ n, v ≠ some (.integer n)) → (∀ q, v ≠ some (.float q)) →
          evalExpr (fuel + 1) (.increment "x" isInc isPre) env st
            = (.ok (some (.error "Cannot increment non-int")), st)) := by
  intro st env fuel
  have h6 : wrap64 (5 + 1 : Int) = 6 := by decide
  refine ⟨?_, ?_, ?_, ?_⟩
  · intro h
    obtain ⟨st₂, ha, hlen, hget⟩ := getObject_assign (some (.integer 6)) h
    have heval : evalExpr (fuel + 1) (.increment "x" true false) env st
        = (.ok (some (.integer 5)), st₂) := by
      show evalGo (fuel + 1) (.expr (.increment "x" true false)) env st = _
      simp only [evalGo, h, if_true, Bool.false_eq_true, if_false]
      rw [h6, ha]
      rfl
    rw [heval]
    exact ⟨rfl, hget⟩
  · intro h
    obtain ⟨st₂, ha, hlen, hget⟩ := getObject_assign (some (.integer 6)) h
    have heval : evalExpr (fuel + 1) (.increment "x" true true) env st
        = (.ok (some (.integer 6)), st₂) := by
      show evalGo (fuel + 1) (.expr (.increment "x" true true)) env st = _
      simp only [evalGo, h, if_true, Bool.false_eq_true, if_false]
      rw [h6, ha]
      rfl
    rw [heval]
    exact ⟨rfl, hget⟩
  · intro isInc isPre h
    show evalGo (fuel + 1) (.expr (.increment "x" isInc isPre)) env st = _
    simp only [evalGo, h]
  · intro isInc isPre v h hn hq
    show evalGo (fuel + 1) (.expr (.increment "x" isInc isPre)) env st = _
    simp only [evalGo, h]

/-- C8 counterexample: the claim holds that declaring the same name in a
nested child scope is accepted without any diagnostic, but the statement
parser passes the same Context to a bare nested block, so the program
`let x = 1 ; { let x = 2 ; }` is parsed with the redefinition diagnostic
recorded and the inner let statement discarded. -/
theorem c8_counterexample_bare_block_shadowing :
    (parseProgram tokensShadowBareBlock).2 = ["Cannot redefine x"]
    ∧ (parseProgram tokensShadowBareBlock).1
      = [.letStmt "x" (.intLit 1), .block []] :=
  ⟨rfl, rfl⟩

/-- C8 amended: redefining a name bound in the current scope makes
parseLetStatement record the redefinition diagnostic, discard the statement
and leave the context unchanged (first part, for any name, any scope chain
holding the name in its innermost scope and any following tokens); hence
`let x = 1 ; let x = 2 ;` parses to the first let only, with exactly that
diagnostic.  A child scope is opened for if- and while-bodies, so shadowing
there is accepted without diagnostic, while a bare nested block shares its
enclosing scope and the same program inside braces is diagnosed. -/
theorem c8_amended_redefinition_scoping :
    (∀ (name : String) (ty : Ty) (sc : List (String × Ty)) (ctxRest : Ctx)
        (rest : List Token) (errs : List String),
      lookupTy sc name = some ty →
      parseLetStatement
          { tokens := [.tLet, .tIdent name, .tDefine, .tInt 1, .tSemi] ++ rest,
            pos := 0, errs := errs } (sc :: ctxRest)
        = (none,
           { tokens := [.tLet, .tIdent name, .tDefine, .tInt 1, .tSemi] ++ rest,
             pos := 4, errs := errs ++ ["Cannot redefine " ++ name] },
           sc :: ctxRest))
    ∧ (parseProgram tokensSameScope).2 = ["Cannot redefine x"]
    ∧ (parseProgram tokensSameScope).1 = [.letStmt "x" (.intLit 1)]
    ∧ (parseProgram tokensShadowIfBody).2 = []
    ∧ (parseProgram tokensShadowWhileBody).2 = []
    ∧ (parseProgram tokensShadowBareBlock).2 = ["Cannot redefine x"] := by
  refine ⟨?_, rfl, rfl, rfl, rfl, rfl⟩
  intro name ty sc ctxRest rest errs h
  simp [parseLetStatement, parseLetStatement.parseLetTail, assertNext, peek, current,
    advance, addErr, parseExpression, parseType, getInThisScope, h, Token.type,
    Token.literalOf, List.getD]

/-
Witnesses: each theorem with a hypothesis applied at a concrete input.
-/

/-- Witness for C2 at concrete inputs: the unresolved identifier `nope`
evaluates to an Error, which is appended to the argument list, and the call
`f(nope)` with `f = func(x) { return 42; }` still yields Integer(42). -/
theorem c2_call_arguments_unchecked_witness :
    runCall 6 ["x"] [.returnStmt (.intLit 42)] 0 [.ident "nope"] [] 0 initStore
      = runCall 5 ["x"] [.returnStmt (.intLit 42)] 0 []
          [some (.error "Cannot resolve identifier")] 0 initStore
    ∧ (evalExpr 7 (.call (.ident "f") [.ident "nope"]) 0
        [{ vars := [("f", some (.function ["x"] [.returnStmt (.intLit 42)] 0))],
           parent := none }]).1
      = .ok (some (.integer 42)) :=
  ⟨c2_call_arguments_unchecked.1 5 ["x"] [.returnStmt (.intLit 42)] 0 0 (.ident "nope")
      [] [] "Cannot resolve identifier" initStore initStore rfl,
    c2_call_arguments_unchecked.2 0 (.ident "nope") "Cannot resolve identifier" 0 0
      [{ vars := [("f", some (.function ["x"] [.returnStmt (.intLit 42)] 0))],
         parent := none }]
      [{ vars := [("f", some (.function ["x"] [.returnStmt (.intLit 42)] 0))],
         parent := none }] rfl rfl⟩

/-- Witness for C3 at concrete inputs: a `return` inside a block, an if then
branch, an else branch and a while body propagates the sentinel unchanged, and
a call of a zero-argument constant function unwraps it exactly once. -/
theorem c3_return_sentinel_propagation_witness :
    evalBlockList 3 [.returnStmt (.intLit 1)] 0 initStore
      = (.ok (some (.ret (some (.integer 1)))), initStore)
    ∧ evalStmt 4 (.block [.returnStmt (.intLit 1)]) 0 initStore
      = (.ok (some (.ret (some (.integer 1)))),
         [{ vars := [], parent := none }, { vars := [], parent := some 0 }])
    ∧ evalStmt 3 (.ifStmt (.boolLit true) (.returnStmt (.intLit 2)) none) 0 initStore
      = (.ok (some (.ret (some (.integer 2)))),
         [{ vars := [], parent := none }, { vars := [], parent := some 0 }])
    ∧ evalStmt 3 (.ifStmt (.boolLit false) (.exprStmt (.intLit 0))
          (some (.returnStmt (.intLit 3)))) 0 initStore
      = (.ok (some (.ret (some (.integer 3)))),
         [{ vars := [], parent := none }, { vars := [], parent := some 0 }])
    ∧ evalStmt 3 (.whileStmt (.boolLit true) (.returnStmt (.intLit 4))) 0 initStore
      = (.ok (some (.ret (some (.integer 4)))),
         [{ vars := [], parent := none }, { vars := [], parent := some 0 }])
    ∧ evalExpr 6 (.call (.ident "f") []) 0
        [{ vars := [("f", some (.function ["x"] [.returnStmt (.intLit 42)] 0))],
           parent := none }]
      = (.ok (some (.integer 42)),
         [{ vars := [("f", some (.function ["x"] [.returnStmt (.intLit 42)] 0))],
            parent := none },
          { vars := [], parent := some 0 }, { vars := [], parent := some 1 }]) :=
  ⟨c3_return_sentinel_propagation.1 2 (.returnStmt (.intLit 1)) [] 0 initStore initStore
      (some (.integer 1)) rfl,
    c3_return_sentinel_propagation.2.1 3 [.returnStmt (.intLit 1)] 0 initStore
      [{ vars := [], parent := none }, { vars := [], parent := some 0 }]
      (some (.integer 1)) rfl,
    c3_return_sentinel_propagation.2.2.1 2 (.boolLit true) (.returnStmt (.intLit 2)) none
      0 initStore initStore
      [{ vars := [], parent := none }, { vars := [], parent := some 0 }]
      (some (.boolean true)) (some (.integer 2)) rfl rfl rfl rfl,
    c3_return_sentinel_propagation.2.2.2.1 2 (.boolLit false) (.exprStmt (.intLit 0))
      (.returnStmt (.intLit 3)) 0 initStore initStore
      [{ vars := [], parent := none }, { vars := [], parent := some 0 }]
      (some (.boolean false)) (some (.integer 3)) rfl rfl rfl rfl,
    c3_return_sentinel_propagation.2.2.2.2.1 2 (.boolLit true) (.returnStmt (.intLit 4))
      0 initStore initStore
      [{ vars := [], parent := none }, { vars := [], parent := some 0 }]
      (some (.boolean true)) (some (.integer 4)) rfl rfl rfl rfl,
    c3_return_sentinel_propagation.2.2.2.2.2 5 (.ident "f") [] 0
      [{ vars := [("f", some (.function ["x"] [.returnStmt (.intLit 42)] 0))],
         parent := none }]
      [{ vars := [("f", some (.function ["x"] [.returnStmt (.intLit 42)] 0))],
         parent := none }]
      [{ vars := [("f", some (.function ["x"] [.returnStmt (.intLit 42)] 0))],
          parent := none },
        { vars := [], parent := some 0 }, { vars := [], parent := some 1 }]
      ["x"] [.returnStmt (.intLit 42)] 0 (some (.integer 42)) rfl rfl⟩

/-- Witness for C4 at concrete inputs: `false && (y = 9)` and
`true || (y = 9)` short-circuit, leaving the store untouched by the
assignment on the right. -/
theorem c4_logical_short_circuit_witness :
    evalExpr 2 (.bin .land (.boolLit false) (.assign "y" (.intLit 9))) 0 initStore
      = (.ok (some (.boolean false)), initStore)
    ∧ evalExpr 2 (.bin .lor (.boolLit true) (.assign "y" (.intLit 9))) 0 initStore
      = (.ok (some (.boolean true)), initStore) :=
  ⟨(c4_logical_short_circuit 1 (.boolLit false) (.assign "y" (.intLit 9)) 0 initStore
      initStore (some (.boolean false)) rfl rfl).1 rfl,
    (c4_logical_short_circuit 1 (.boolLit true) (.assign "y" (.intLit 9)) 0 initStore
      initStore (some (.boolean true)) rfl rfl).2 rfl⟩

/-- Witness for C6 at a concrete input: 7 / 2 on two Integer objects yields
the Integer carrying the truncated quotient. -/
theorem c6_numeric_promotion_witness :
    applyBinOp .slash (some (.integer 7)) (some (.integer 2))
      = .ok (some (.integer (wrap64 (Int.tdiv 7 2)))) :=
  ((c6_numeric_promotion 7 0).2.2.1 2).2.2.2 (by decide)

/-- Witness for C7 at concrete one-scope stores binding `x` to Integer(5),
nothing, or Null. -/
theorem c7_increment_semantics_witness :
    ((evalExpr 4 (.increment "x" true false) 0
        [{ vars := [("x", some (.integer 5))], parent := none }]).1
      = .ok (some (.integer 5))
    ∧ getObject (evalExpr 4 (.increment "x" true false) 0
        [{ vars := [("x", some (.integer 5))], parent := none }]).2 0 "x"
      = some (some (.integer 6)))
    ∧ ((evalExpr 4 (.increment "x" true true) 0
        [{ vars := [("x", some (.integer 5))], parent := none }]).1
      = .ok (some (.integer 6))
    ∧ getObject (evalExpr 4 (.increment "x" true true) 0
        [{ vars := [("x", some (.integer 5))], parent := none }]).2 0 "x"
      = some (some (.integer 6)))
    ∧ evalExpr 4 (.increment "x" true false) 0 initStore
      = (.ok (some (.error "Cannot resolve identifier")), initStore)
    ∧ evalExpr 4 (.increment "x" false true) 0
        [{ vars := [("x", some .null)], parent := none }]
      = (.ok (some (.error "Cannot increment non-int")),
         [{ vars := [("x", some .null)], parent := none }]) :=
  ⟨(c7_increment_semantics [{ vars := [("x", some (.integer 5))], parent := none }]
      0 3).1 rfl,
    (c7_increment_semantics [{ vars := [("x", some (.integer 5))], parent := none }]
      0 3).2.1 rfl,
    (c7_increment_semantics initStore 0 3).2.2.1 true false rfl,
    (c7_increment_semantics [{ vars := [("x", some .null)], parent := none }]
      0 3).2.2.2 false true (some .null) rfl (fun n => by simp) (fun q => by simp)⟩

/-- Witness for C8 at a concrete input: redeclaring `y` when the innermost
scope already holds it records the diagnostic and discards the statement. -/
theorem c8_amended_redefinition_scoping_witness :
    parseLetStatement
        { tokens := [.tLet, .tIdent "y", .tDefine, .tInt 1, .tSemi], pos := 0, errs := [] }
        [[("y", Ty.int)]]
      = (none,
         { tokens := [.tLet, .tIdent "y", .tDefine, .tInt 1, .tSemi], pos := 4,
           errs := ["Cannot redefine y"] },
         [[("y", Ty.int)]]) := by
  have h := c8_amended_redefinition_scoping.1 "y" Ty.int [("y", Ty.int)] [] [] [] rfl
  simpa using h

/-- Witness for C9 at concrete inputs: a program whose statement evaluates to
an Error yields that Error (necessarily of Error shape), and a top-level
return before another statement is dropped by the program loop. -/
theorem c9_program_result_nil_or_error_witness :
    (∃ m, Object.error "Cannot resolve identifier" = .error m)
    ∧ evalProgramAux 3 [.returnStmt (.intLit 1), .exprStmt (.intLit 9)] 0 initStore
      = evalProgramAux 2 [.exprStmt (.intLit 9)] 0 initStore :=
  ⟨c9_program_result_nil_or_error.1 3 [.exprStmt (.ident "nope")] 0 initStore
      [{ vars := [], parent := none }, { vars := [], parent := some 0 }]
      (.error "Cannot resolve identifier") rfl,
    c9_program_result_nil_or_error.2 2 (.returnStmt (.intLit 1)) [.exprStmt (.intLit 9)]
      0 initStore initStore (some (.integer 1)) rfl⟩

/-- Witness for C10 at concrete inputs: `1 && 2` evaluates to Boolean(true),
not to the Integer(2) operand, and `0 || 2` likewise. -/
theorem c10_logical_result_fresh_boolean_witness :
    evalExpr 2 (.bin .land (.intLit 1) (.intLit 2)) 0 initStore
      = (.ok (some (.boolean true)), initStore)
    ∧ evalExpr 2 (.bin .lor (.intLit 0) (.intLit 2)) 0 initStore
      = (.ok (some (.boolean true)), initStore) :=
  ⟨(c10_logical_result_fresh_boolean 1 (.intLit 1) (.intLit 2) 0 initStore initStore
      initStore (some (.integer 1)) (some (.integer 2)) rfl rfl rfl rfl).1 rfl,
    (c10_logical_result_fresh_boolean 1 (.intLit 0) (.intLit 2) 0 initStore initStore
      initStore (some (.integer 0)) (some (.integer 2)) rfl rfl rfl rfl).2 rfl⟩
